import Mathlib

/-!
# spire-eks-ra: SPIFFE transport credentials and pod registration

A shallow embedding of the two Go source files of the repository:

* `grpcspiffe/grpcspiffe.go`: `getCertificate`, `validateCerts`, `WithSpiffe`;
* `main.go`: the pod `Added` and `Deleted` event handlers.

Conventions of the embedding.

* A Go call ends in one of four ways, recorded by `Outcome`: it returns a value
  with a nil error (`ret`), it returns a non-nil error (`err`), it exits the
  process through `log.Fatalf` (`fatal`), or it panics (`panic`: an index or
  slice expression out of range, `log.Panicf`, `panic`).
* The operations of `crypto/x509` and `net/url` are not code of the repository.
  They are the fields of a record `Lib`, and every theorem holds for every
  such record.
* A certificate pool is the list of the certificates added to it, in order.
* Pointers handed to the functions are taken to be non-nil.
-/

namespace SpireEksRa

/-- A Go byte slice. Bytes are kept as naturals, no arithmetic is done on them. -/
abbrev Bytes := List Nat

/-- How a Go call ends. -/
inductive Outcome (ε α : Type) where
  | ret (a : α)
  | err (e : ε)
  | fatal
  | panic

/-- The message `workloadprotos.X509SVID`. -/
structure X509SVID where
  SpiffeId : String
  X509Svid : Bytes
  X509SvidKey : Bytes
  Bundle : Bytes

/-- The message `workloadprotos.X509SVIDResponse`. The Go map `FederatedBundles`
is its lookup function. -/
structure X509SVIDResponse where
  Svids : List X509SVID
  FederatedBundles : String → Option Bytes

/-- The struct `x509.VerifyOptions`, with the two pools the program fills. -/
structure VerifyOptions (C : Type) where
  Intermediates : List C
  Roots : List C

/-- The standard-library operations the package calls. `E` is the type of the
error values they return. -/
structure Lib where
  /-- The type `x509.Certificate`. -/
  Certificate : Type
  /-- The type of a parsed private key. -/
  PrivateKey : Type
  /-- The type `url.URL`. -/
  URL : Type
  /-- The error values of the library. -/
  E : Type
  /-- The field `Raw` of a certificate. -/
  Raw : Certificate → Bytes
  /-- The field `URIs` of a certificate. -/
  URIs : Certificate → List URL
  /-- The field `Scheme` of a URL. -/
  Scheme : URL → String
  /-- The field `Host` of a URL. -/
  Host : URL → String
  /-- The method `String` of a URL. -/
  urlString : URL → String
  /-- The function `x509.ParseCertificate`. -/
  ParseCertificate : Bytes → Except E Certificate
  /-- The function `x509.ParseCertificates`. -/
  ParseCertificates : Bytes → Except E (List Certificate)
  /-- The function `x509.ParsePKCS8PrivateKey`. -/
  ParsePKCS8PrivateKey : Bytes → Except E PrivateKey
  /-- The function `url.Parse`. -/
  urlParse : String → Except E URL
  /-- The method `Verify` of a certificate. -/
  Verify : Certificate → VerifyOptions Certificate → Except E (List (List Certificate))

/-- The non-nil errors the package returns, one constructor for each return
site of `grpcspiffe.go`. `cause` is the library error that is wrapped. -/
inductive Error (E : Type) where
  /-- Line 26: could not parse certificate from workload api. -/
  | couldNotParseCertificate (cause : E)
  /-- Line 30: could not parse key from workload api. -/
  | couldNotParseKey (cause : E)
  /-- Line 52: parsing peer certificate. -/
  | parsingPeerCertificate (cause : E)
  /-- Line 64: parsing spiffe ID. -/
  | parsingSpiffeID (cause : E)
  /-- Line 69: parsing my own spiffe ID. -/
  | parsingMyOwnSpiffeID (cause : E)
  /-- Line 79: parsing bundle. -/
  | parsingBundle (cause : E)
  /-- Line 88: no federated bundle for the host. -/
  | noFederatedBundle (host : String)
  /-- Line 92: parsing root. -/
  | parsingRoot (cause : E)
  /-- Line 104: the error of `Verify`, returned unchanged. -/
  | verifyFailed (cause : E)
  /-- Line 111: SVIDs have exactly 1 URI SAN. -/
  | notExactlyOneURISAN (count : Nat)
  /-- Line 114: SVIDs have URI SAN of scheme spiffe. -/
  | schemeNotSpiffe (scheme : String)
  /-- Line 118: server has wrong SPIFFE ID. -/
  | wrongSpiffeID (uri spiffeID : String)
  /-- Line 136: getting client certificate. -/
  | gettingClientCertificate (cause : E)
  /-- Line 146: getting federated trust. -/
  | gettingFederatedTrust (cause : E)

/-- The failure kinds that the specification names. -/
inductive ErrKind where
  | ParseError
  | UnknownTrustDomain
  | ChainInvalid
  | IdentityMismatch
  deriving DecidableEq, Repr

/-- The Go errors carry a message only. This is the table from the return
sites to the failure kinds of section 7 of the specification: the sites that
wrap a parsing error are ParseError, the missing federated bundle is
UnknownTrustDomain, the error of `Verify` is ChainInvalid, the three checks on
the URI SAN are IdentityMismatch. The two errors of the snapshot accessor have
no named kind. -/
def Error.kind {E : Type} : Error E → Option ErrKind
  | .couldNotParseCertificate _ => some .ParseError
  | .couldNotParseKey _ => some .ParseError
  | .parsingPeerCertificate _ => some .ParseError
  | .parsingSpiffeID _ => some .ParseError
  | .parsingMyOwnSpiffeID _ => some .ParseError
  | .parsingBundle _ => some .ParseError
  | .noFederatedBundle _ => some .UnknownTrustDomain
  | .parsingRoot _ => some .ParseError
  | .verifyFailed _ => some .ChainInvalid
  | .notExactlyOneURISAN _ => some .IdentityMismatch
  | .schemeNotSpiffe _ => some .IdentityMismatch
  | .wrongSpiffeID _ _ => some .IdentityMismatch
  | .gettingClientCertificate _ => none
  | .gettingFederatedTrust _ => none

/-- The struct `tls.Certificate`, with the three fields the program sets. -/
structure TLSCertificate (L : Lib) where
  Certificate : List Bytes
  PrivateKey : L.PrivateKey
  Leaf : L.Certificate

/-- The function `getCertificate` (lines 17 to 45). -/
def getCertificate (L : Lib) (resp : X509SVIDResponse) :
    Outcome (Error L.E) (TLSCertificate L) :=
  match resp.Svids with
  | [svid] =>
    match L.ParseCertificates svid.X509Svid with
    | .error e => .err (.couldNotParseCertificate e)
    | .ok certs =>
      match L.ParsePKCS8PrivateKey svid.X509SvidKey with
      | .error e => .err (.couldNotParseKey e)
      | .ok key =>
        -- the loop of lines 33 to 36
        let certsRaw := certs.map L.Raw
        -- line 41: certs[0]
        match certs with
        | [] => .panic
        | leaf :: _ => .ret { Certificate := certsRaw, PrivateKey := key, Leaf := leaf }
  -- line 19: len(svids) != 1, log.Fatalf
  | _ => .fatal

/-- The loop of lines 48 to 55: parse the presented chain from left to right,
stop at the first certificate that does not parse. -/
def parsePeerCerts (L : Lib) : List Bytes → Except L.E (List L.Certificate)
  | [] => .ok []
  | rawCert :: rest =>
    match L.ParseCertificate rawCert with
    | .error e => .error e
    | .ok cert =>
      match parsePeerCerts L rest with
      | .error e => .error e
      | .ok certs => .ok (cert :: certs)

/-- Lines 74 to 95 of `validateCerts`: the pool of roots, chosen by comparing
the two hosts. -/
def selectRoots (L : Lib) (spiffe mySpiffeID : L.URL) (svid : X509SVID)
    (resp : X509SVIDResponse) : Outcome (Error L.E) (List L.Certificate) :=
  if L.Host mySpiffeID = L.Host spiffe then
    match L.ParseCertificates svid.Bundle with
    | .error e => .err (.parsingBundle e)
    | .ok bundle => .ret bundle
  else
    match resp.FederatedBundles (L.Host spiffe) with
    | none => .err (.noFederatedBundle (L.Host spiffe))
    | some rootDER =>
      match L.ParseCertificate rootDER with
      | .error e => .err (.parsingRoot e)
      | .ok root => .ret [root]

/-- Lines 107 to 121 of `validateCerts`: the checks on the chains that
`Verify` returned. -/
def checkVerifiedLeaf (L : Lib) (spiffeID : String) (chains : List (List L.Certificate)) :
    Outcome (Error L.E) Unit :=
  -- line 107: chains[0][0]
  match chains with
  | [] => .panic
  | [] :: _ => .panic
  | (verifiedLeaf :: _) :: _ =>
    match L.URIs verifiedLeaf with
    | [uri] =>
      if L.Scheme uri ≠ "spiffe" then .err (.schemeNotSpiffe (L.Scheme uri))
      else if L.urlString uri ≠ spiffeID then .err (.wrongSpiffeID (L.urlString uri) spiffeID)
      else .ret ()
    | uris => .err (.notExactlyOneURISAN uris.length)

/-- Lines 97 to 121 of `validateCerts`: chain verification of the leaf with the
two pools, then the checks on the verified leaf. -/
def verifyWithRoots (L : Lib) (spiffeID : String) (leaf : L.Certificate)
    (intermediates roots : List L.Certificate) : Outcome (Error L.E) Unit :=
  match L.Verify leaf { Intermediates := intermediates, Roots := roots } with
  | .error e => .err (.verifyFailed e)
  | .ok chains => checkVerifiedLeaf L spiffeID chains

/-- The function `validateCerts` (lines 47 to 122). -/
def validateCerts (L : Lib) (spiffeID : String) (rawCerts : List Bytes)
    (resp : X509SVIDResponse) : Outcome (Error L.E) Unit :=
  match parsePeerCerts L rawCerts with
  | .error e => .err (.parsingPeerCertificate e)
  | .ok certs =>
    -- line 58: certs[1:]
    match certs with
    | [] => .panic
    | leaf :: intermediates =>
      match L.urlParse spiffeID with
      | .error e => .err (.parsingSpiffeID e)
      | .ok spiffe =>
        -- line 67: resp.Svids[0]
        match resp.Svids with
        | [] => .panic
        | svid :: _ =>
          match L.urlParse svid.SpiffeId with
          | .error e => .err (.parsingMyOwnSpiffeID e)
          | .ok mySpiffeID =>
            match selectRoots L spiffe mySpiffeID svid resp with
            | .err e => .err e
            | .fatal => .fatal
            | .panic => .panic
            | .ret roots => verifyWithRoots L spiffeID leaf intermediates roots

/-- What the program can observe of a `workload.X509Client` at one instant: the
result of its accessor `CurrentSVID`. -/
structure X509Client (L : Lib) where
  CurrentSVID : Except L.E X509SVIDResponse

/-- The struct `tls.Config`, with the three fields `WithSpiffe` sets. A callback
takes the state of the captured client at the time of the call. -/
structure TLSConfig (L : Lib) where
  GetClientCertificate : X509Client L → Outcome (Error L.E) (TLSCertificate L)
  InsecureSkipVerify : Bool
  VerifyPeerCertificate : X509Client L → List Bytes → Outcome (Error L.E) Unit

/-- The function `WithSpiffe` (lines 126 to 153). `first` is the snapshot
received from the update channel at line 129. -/
def WithSpiffe (L : Lib) (spiffeID : String) (first : X509SVIDResponse) :
    Outcome (Error L.E) (TLSConfig L) :=
  -- line 130: resp.Svids[0], for the log line
  match first.Svids with
  | [] => .panic
  | _ :: _ =>
    .ret
      { GetClientCertificate := fun client =>
          match client.CurrentSVID with
          | .error e => .err (.gettingClientCertificate e)
          | .ok resp => getCertificate L resp
        InsecureSkipVerify := true
        VerifyPeerCertificate := fun client rawCerts =>
          match client.CurrentSVID with
          | .error e => .err (.gettingFederatedTrust e)
          | .ok resp => validateCerts L spiffeID rawCerts resp }

/-! ## main.go: the pod event handlers -/

/-- The package variable `Config` (lines 28 to 36). -/
structure ConfigT where
  SpireServer : String
  SpireAuthed : Bool
  KubeConfig : String
  KubeMasterURL : String
  Region : String
  TrustDomain : String
  AwsAccount : String

/-- The fields of a `core.Pod` that the handlers read. `NodeName` is
`pod.Spec.NodeName`. -/
structure Pod where
  Name : String
  Namespace : String
  UID : String
  NodeName : String

/-- The message `common.Selector`. The field `Typ` is the Go field `Type`. -/
structure Selector where
  Typ : String
  Value : String
  deriving DecidableEq

/-- The message `common.RegistrationEntry`, with the fields the handler sets. -/
structure RegistrationEntry where
  ParentId : String
  SpiffeId : String
  Selectors : List Selector
  deriving DecidableEq

/-- The message `registration.RegistrationEntryID`. -/
structure RegistrationEntryID where
  Id : String
  deriving DecidableEq

/-- A value of the empty interface, as kept in a `sync.Map`: the nil interface,
or a value together with its dynamic type. -/
inductive Dyn where
  | nil
  | string (s : String)
  | registrationEntryID (v : RegistrationEntryID)
  deriving DecidableEq

/-- The type assertion `x.(string)`, with its `ok` result. -/
def Dyn.assertString : Dyn → String × Bool
  | .string s => (s, true)
  | _ => ("", false)

/-- The type assertion `x.(registration.RegistrationEntryID)`, with its `ok`
result. When the dynamic type differs the value is the zero value. -/
def Dyn.assertRegistrationEntryID : Dyn → RegistrationEntryID × Bool
  | .registrationEntryID v => (v, true)
  | _ => ({ Id := "" }, false)

/-- A `sync.Map` with string keys: `Load` is application, `none` stands for a
missing key. -/
abbrev SyncMap := String → Option Dyn

/-- The method `Store` of a `sync.Map`. -/
def SyncMap.Store (m : SyncMap) (key : String) (value : Dyn) : SyncMap :=
  fun k => if k = key then some value else m k

/-- The method `Load` of a `sync.Map`: the value, nil when the key is missing,
and the `ok` result. -/
def SyncMap.Load (m : SyncMap) (key : String) : Dyn × Bool :=
  match m key with
  | some v => (v, true)
  | none => (.nil, false)

/-- One call made on the registration client. -/
inductive RegistrationCall where
  | CreateEntry (entry : RegistrationEntry)
  | DeleteEntry (id : RegistrationEntryID)
  deriving DecidableEq

/-- The answers of the remote registration API, `registration.RegistrationClient`. -/
structure RegistrationClient where
  CreateEntry : RegistrationEntry → Except String RegistrationEntryID
  DeleteEntry : RegistrationEntryID → Except String RegistrationEntry

/-- What the handlers read and write: the two maps of lines 90 and 93, and the
calls made on the registration client so far, oldest first. -/
structure World where
  hostMap : SyncMap
  podMap : SyncMap
  calls : List RegistrationCall

/-- Splitting a list of characters at every occurrence of `sep`. -/
def splitChars (sep : Char) : List Char → List (List Char)
  | [] => [[]]
  | c :: cs =>
    if c = sep then [] :: splitChars sep cs
    else
      match splitChars sep cs with
      | [] => [[c]]
      | part :: parts => (c :: part) :: parts

/-- The function `strings.Split` for a separator of one character, the only way
the program calls it. A Go string is taken as the sequence of its characters;
the slash is one byte and is part of the encoding of no other character, so
splitting characters and splitting bytes agree. -/
def stringsSplit (s : String) (sep : Char) : List String :=
  (splitChars sep s.data).map String.mk

/-- The function `strings.HasPrefix`. -/
def stringsHasPrefix (s pre : String) : Bool :=
  pre.data.isPrefixOf s.data

/-- Lines 168 to 191 of the `Added` handler: from the provider ID of the node
to the registration entry of the pod. -/
def buildRegistrationEntry (Config : ConfigT) (providerID : String) (pod : Pod) :
    Outcome Empty RegistrationEntry :=
  let providerIDParts := stringsSplit providerID '/'
  if providerIDParts.length ≠ 5 then .panic
  else
    match providerIDParts with
    | [p0, p1, p2, az, instanceID] =>
      if p0 ≠ "aws:" ∨ p1 ≠ "" ∨ p2 ≠ "" then .panic
      else if ¬ stringsHasPrefix az Config.Region then .panic
      else
        let parentID := "spiffe://" ++ Config.TrustDomain ++ "/spire/agent/aws_iid/"
          ++ Config.AwsAccount ++ "/" ++ Config.Region ++ "/" ++ instanceID
        .ret
          { ParentId := parentID
            SpiffeId := "spiffe://" ++ Config.TrustDomain ++ "/" ++ pod.Namespace
            Selectors := [{ Typ := "k8s", Value := "pod-uid:" ++ pod.UID }] }
    | _ => .panic

/-- The `watch.Added` case of the pod handler (lines 157 to 209). -/
def podAdded (Config : ConfigT) (registrationClient : RegistrationClient) (pod : Pod)
    (w : World) : Outcome Empty World :=
  match w.hostMap.Load pod.NodeName with
  | (providerIDi, true) =>
    match providerIDi.assertString with
    | (_, false) => .panic
    | (providerID, true) =>
      match buildRegistrationEntry Config providerID pod with
      | .ret registrationEntry =>
        if Config.SpireServer ≠ "" then
          match registrationClient.CreateEntry registrationEntry with
          | .error _ =>
            .panic
          | .ok entry =>
            .ret { w with
              podMap := w.podMap.Store pod.UID (.string entry.Id)
              calls := w.calls ++ [.CreateEntry registrationEntry] }
        else .ret w
      | _ => .panic
  | (_, false) => .ret w

/-- The `watch.Deleted` case of the pod handler (lines 210 to 225). -/
def podDeleted (Config : ConfigT) (registrationClient : RegistrationClient) (pod : Pod)
    (w : World) : Outcome Empty World :=
  if Config.SpireServer ≠ "" then
    let registrationEntryIDi := (w.podMap.Load pod.UID).1
    let registrationEntryID := registrationEntryIDi.assertRegistrationEntryID.1
    let w1 := { w with calls := w.calls ++ [.DeleteEntry registrationEntryID] }
    -- both results of the call are only logged
    match registrationClient.DeleteEntry registrationEntryID with
    | .error _ => .ret w1
    | .ok _ => .ret w1
  else .ret w

/-! ## Variations of the inputs, used to state what a result does not depend on -/

/-- The library `L` with another `Verify`. -/
def Lib.withVerify (L : Lib)
    (verify : L.Certificate → VerifyOptions L.Certificate → Except L.E (List (List L.Certificate))) :
    Lib :=
  { L with Verify := verify }

/-- The snapshot `resp` with another map of federated bundles. -/
def X509SVIDResponse.withFederatedBundles (resp : X509SVIDResponse)
    (federated : String → Option Bytes) : X509SVIDResponse :=
  { resp with FederatedBundles := federated }

/-- The snapshot `resp` with another own trust bundle in its first identity. -/
def X509SVIDResponse.withBundle (resp : X509SVIDResponse) (bundle : Bytes) :
    X509SVIDResponse :=
  { resp with
    Svids :=
      match resp.Svids with
      | [] => []
      | svid :: others => { svid with Bundle := bundle } :: others }

/-! ## A small instance of the library and concrete inputs -/

/-- A URL of the small instance: its scheme, its host and its text. -/
structure ToyURL where
  Scheme : String
  Host : String
  Text : String
  deriving DecidableEq

/-- The URLs the small instance parses. -/
def toyParseURL (s : String) : Except String ToyURL :=
  if s = "spiffe://example.org/server" then .ok ⟨"spiffe", "example.org", s⟩
  else if s = "spiffe://example.org/client" then .ok ⟨"spiffe", "example.org", s⟩
  else if s = "spiffe://partner.org/server" then .ok ⟨"spiffe", "partner.org", s⟩
  else .error "invalid URI"

/-- The URI SANs of the certificates of the small instance. Certificates are
numbered: 0 is the root of example.org, 5 the root of partner.org. -/
def toyURIs : Nat → List ToyURL
  | 1 => [⟨"spiffe", "example.org", "spiffe://example.org/server"⟩]
  | 2 => [⟨"spiffe", "example.org", "spiffe://example.org/client"⟩]
  | 3 => [⟨"spiffe", "example.org", "spiffe://example.org/server"⟩,
          ⟨"spiffe", "example.org", "spiffe://example.org/client"⟩]
  | 4 => [⟨"https", "example.org", "https://example.org/server"⟩]
  | 6 => [⟨"spiffe", "partner.org", "spiffe://partner.org/server"⟩]
  | _ => []

/-- The issuer of each certificate of the small instance. -/
def toyIssuer : Nat → Nat
  | 6 => 5
  | _ => 0

/-- One certificate of the small instance is two bytes: 48 and its number. -/
def toyParseCertificate : Bytes → Except String Nat
  | [48, n] => if n ≤ 7 then .ok n else .error "malformed certificate"
  | _ => .error "malformed certificate"

/-- A sequence of certificates of the small instance, parsed while input is
left. -/
def toyParseCertificates : Bytes → Except String (List Nat)
  | [] => .ok []
  | [_] => .error "malformed certificate"
  | tag :: n :: rest =>
    if tag = 48 ∧ n ≤ 7 then
      match toyParseCertificates rest with
      | .error e => .error e
      | .ok certs => .ok (n :: certs)
    else .error "malformed certificate"

/-- A key of the small instance is two bytes: 2 and its number. -/
def toyParseKey : Bytes → Except String Nat
  | [2, k] => .ok k
  | _ => .error "malformed key"

/-- Verification in the small instance: it succeeds when the issuer of the
leaf is among the roots, with the single chain made of the leaf and its
issuer. -/
def toyVerify (leaf : Nat) (opts : VerifyOptions Nat) : Except String (List (List Nat)) :=
  if toyIssuer leaf ∈ opts.Roots then .ok [[leaf, toyIssuer leaf]]
  else .error "certificate signed by unknown authority"

/-- The small instance of the library. -/
def toyLib : Lib where
  Certificate := Nat
  PrivateKey := Nat
  URL := ToyURL
  E := String
  Raw := fun n => [48, n]
  URIs := toyURIs
  Scheme := ToyURL.Scheme
  Host := ToyURL.Host
  urlString := ToyURL.Text
  ParseCertificate := toyParseCertificate
  ParseCertificates := toyParseCertificates
  ParsePKCS8PrivateKey := toyParseKey
  urlParse := toyParseURL
  Verify := toyVerify

/-- A snapshot with one identity of example.org, its bundle the root 0, and a
federated bundle for partner.org. -/
def toySnapshot : X509SVIDResponse where
  Svids := [{ SpiffeId := "spiffe://example.org/client", X509Svid := [48, 2, 48, 0],
              X509SvidKey := [2, 9], Bundle := [48, 0] }]
  FederatedBundles := fun host => if host = "partner.org" then some [48, 5] else none

/-- The snapshot `toySnapshot` without any federated bundle. -/
def toySnapshotAlone : X509SVIDResponse where
  Svids := toySnapshot.Svids
  FederatedBundles := fun _ => none

/-- A snapshot with one identity whose certificate bytes are empty and whose
key is well formed. -/
def toySnapshotNoCert : X509SVIDResponse where
  Svids := [{ SpiffeId := "spiffe://example.org/client", X509Svid := [],
              X509SvidKey := [2, 9], Bundle := [48, 0] }]
  FederatedBundles := fun _ => none

/-- A snapshot with two identities. -/
def toySnapshotTwo : X509SVIDResponse where
  Svids := toySnapshot.Svids ++ toySnapshot.Svids
  FederatedBundles := fun _ => none

/-- A configuration of the registration agent. -/
def toyConfig : ConfigT where
  SpireServer := "unix:///tmp/spire-registration.sock"
  SpireAuthed := false
  KubeConfig := ""
  KubeMasterURL := ""
  Region := "us-east-2"
  TrustDomain := "spire-test.square"
  AwsAccount := "517588744928"

/-- A pod scheduled on the node of `toyWorld`. -/
def toyPod : Pod where
  Name := "web-0"
  Namespace := "shop"
  UID := "uid-1"
  NodeName := "ip-172-31-46-148.us-east-2.compute.internal"

/-- A registration API that answers every creation with the entry ID
entry-1. -/
def toyRegistrationClient : RegistrationClient where
  CreateEntry := fun _ => .ok { Id := "entry-1" }
  DeleteEntry := fun _ => .error "no such entry"

/-- The maps after the node of `toyPod` was added, no pod seen yet. -/
def toyWorld : World where
  hostMap := fun k =>
    if k = "ip-172-31-46-148.us-east-2.compute.internal" then
      some (.string "aws:///us-east-2a/i-0bc11c4b1c7a70acb")
    else none
  podMap := fun _ => none
  calls := []

/-- The registration entry the `Added` handler builds for `toyPod`. -/
def toyEntry : RegistrationEntry where
  ParentId := "spiffe://spire-test.square/spire/agent/aws_iid/517588744928/us-east-2/i-0bc11c4b1c7a70acb"
  SpiffeId := "spiffe://spire-test.square/shop"
  Selectors := [{ Typ := "k8s", Value := "pod-uid:uid-1" }]

/-! ## Theorems on grpcspiffe.go -/

/-- Replacing `Verify` does not change how a chain parses. -/
theorem parsePeerCerts_withVerify (L : Lib)
    (verify : L.Certificate → VerifyOptions L.Certificate → Except L.E (List (List L.Certificate)))
    (rawCerts : List Bytes) :
    parsePeerCerts (L.withVerify verify) rawCerts = parsePeerCerts L rawCerts := by
  induction rawCerts with
  | nil => rfl
  | cons rawCert rest ih =>
    have hp : (L.withVerify verify).ParseCertificate rawCert = L.ParseCertificate rawCert := rfl
    simp only [parsePeerCerts, ih]
    cases h : L.ParseCertificate rawCert with
    | error e =>
      rw [h] at hp
      simp only [hp]
    | ok c =>
      rw [h] at hp
      simp only [hp]
      cases parsePeerCerts L rest <;> rfl

/-- When the chain parses to at least one certificate and both identities parse
as URLs, validateCerts is root selection followed by verification. -/
theorem validateCerts_of_reach (L : Lib) (spiffeID : String) (rawCerts : List Bytes)
    (resp : X509SVIDResponse) (leaf : L.Certificate) (intermediates : List L.Certificate)
    (spiffe mySpiffeID : L.URL) (svid : X509SVID) (others : List X509SVID)
    (hchain : parsePeerCerts L rawCerts = .ok (leaf :: intermediates))
    (hs : L.urlParse spiffeID = .ok spiffe)
    (hsv : resp.Svids = svid :: others)
    (hmy : L.urlParse svid.SpiffeId = .ok mySpiffeID) :
    validateCerts L spiffeID rawCerts resp =
      match selectRoots L spiffe mySpiffeID svid resp with
      | .err e => .err e
      | .fatal => .fatal
      | .panic => .panic
      | .ret roots => verifyWithRoots L spiffeID leaf intermediates roots := by
  unfold validateCerts
  simp only [hchain, hs, hsv, hmy]

/-- C2: trust-root selection. Once the presented chain has parsed to a leaf
and intermediates and both identities have parsed as URLs: when the host of the
target equals the host of the own SPIFFE ID, the roots are exactly the
certificates parsed from the own trust bundle and the map of federated bundles
has no influence on the result; otherwise, when the map of federated bundles
has no entry for the host of the target, validateCerts fails with the error of
kind UnknownTrustDomain whatever Verify would do, and when it has one, the
roots are exactly the single certificate parsed from that entry; the own
bundle has no influence on the result for a foreign host. -/
theorem validateCerts_root_selection (L : Lib) (spiffeID : String) (rawCerts : List Bytes)
    (resp : X509SVIDResponse) (leaf : L.Certificate) (intermediates : List L.Certificate)
    (spiffe mySpiffeID : L.URL) (svid : X509SVID) (others : List X509SVID)
    (hchain : parsePeerCerts L rawCerts = .ok (leaf :: intermediates))
    (hs : L.urlParse spiffeID = .ok spiffe)
    (hsv : resp.Svids = svid :: others)
    (hmy : L.urlParse svid.SpiffeId = .ok mySpiffeID) :
    (L.Host mySpiffeID = L.Host spiffe →
      (∀ bundle, L.ParseCertificates svid.Bundle = .ok bundle →
        selectRoots L spiffe mySpiffeID svid resp = .ret bundle ∧
        validateCerts L spiffeID rawCerts resp =
          verifyWithRoots L spiffeID leaf intermediates bundle) ∧
      (∀ federated,
        validateCerts L spiffeID rawCerts (resp.withFederatedBundles federated) =
          validateCerts L spiffeID rawCerts resp)) ∧
    (L.Host mySpiffeID ≠ L.Host spiffe →
      (resp.FederatedBundles (L.Host spiffe) = none →
        validateCerts L spiffeID rawCerts resp = .err (.noFederatedBundle (L.Host spiffe)) ∧
        (Error.noFederatedBundle (L.Host spiffe) : Error L.E).kind = some .UnknownTrustDomain ∧
        ∀ verify, validateCerts (L.withVerify verify) spiffeID rawCerts resp =
          .err (.noFederatedBundle (L.Host spiffe))) ∧
      (∀ rootDER root, resp.FederatedBundles (L.Host spiffe) = some rootDER →
        L.ParseCertificate rootDER = .ok root →
        selectRoots L spiffe mySpiffeID svid resp = .ret [root] ∧
        validateCerts L spiffeID rawCerts resp =
          verifyWithRoots L spiffeID leaf intermediates [root]) ∧
      (∀ bundle,
        validateCerts L spiffeID rawCerts (resp.withBundle bundle) =
          validateCerts L spiffeID rawCerts resp)) := by
  have hreach := validateCerts_of_reach L spiffeID rawCerts resp leaf intermediates spiffe
    mySpiffeID svid others hchain hs hsv hmy
  refine ⟨fun hhost => ⟨fun bundle hb => ?_, fun federated => ?_⟩,
    fun hhost => ⟨fun hnone => ⟨?_, rfl, fun verify => ?_⟩, fun rootDER root hfed hroot => ?_,
      fun bundle => ?_⟩⟩
  · have hsel : selectRoots L spiffe mySpiffeID svid resp = .ret bundle := by
      simp only [selectRoots, hhost, hb, if_true]
    exact ⟨hsel, by rw [hreach, hsel]⟩
  · have hreach2 := validateCerts_of_reach L spiffeID rawCerts
      (resp.withFederatedBundles federated) leaf intermediates spiffe mySpiffeID svid others
      hchain hs hsv hmy
    rw [hreach, hreach2]
    simp only [selectRoots, hhost, if_true]
  · rw [hreach]
    simp only [selectRoots, hhost, hnone, if_false]
  · have hchain2 : parsePeerCerts (L.withVerify verify) rawCerts = .ok (leaf :: intermediates) := by
      rw [parsePeerCerts_withVerify]; exact hchain
    have hreach2 := validateCerts_of_reach (L.withVerify verify) spiffeID rawCerts resp leaf
      intermediates spiffe mySpiffeID svid others hchain2 hs hsv hmy
    rw [hreach2]
    have hhost2 : ¬ (L.withVerify verify).Host mySpiffeID = (L.withVerify verify).Host spiffe :=
      hhost
    have hnone2 : resp.FederatedBundles ((L.withVerify verify).Host spiffe) = none := hnone
    simp only [selectRoots, hhost2, hnone2, if_false]
    rfl
  · have hsel : selectRoots L spiffe mySpiffeID svid resp = .ret [root] := by
      simp only [selectRoots, hhost, hfed, hroot, if_false]
    exact ⟨hsel, by rw [hreach, hsel]⟩
  · have hsv2 : (resp.withBundle bundle).Svids = { svid with Bundle := bundle } :: others := by
      simp only [X509SVIDResponse.withBundle, hsv]
    have hreach2 := validateCerts_of_reach L spiffeID rawCerts (resp.withBundle bundle) leaf
      intermediates spiffe mySpiffeID { svid with Bundle := bundle } others hchain hs hsv2 hmy
    rw [hreach, hreach2]
    simp only [selectRoots, hhost, if_false]
    rfl

/-- Witness of C2: the small instance. First the target and the snapshot are
both of example.org and the chain is certificate 1; then the target is of
partner.org, the chain is certificate 6 and the snapshot has no federated
bundle. -/
theorem validateCerts_root_selection_witness :
    (toyLib.Host (⟨"spiffe", "example.org", "spiffe://example.org/client"⟩ : ToyURL) =
        toyLib.Host (⟨"spiffe", "example.org", "spiffe://example.org/server"⟩ : ToyURL) →
      (∀ bundle, toyLib.ParseCertificates [48, 0] = .ok bundle →
        selectRoots toyLib (⟨"spiffe", "example.org", "spiffe://example.org/server"⟩ : ToyURL)
            (⟨"spiffe", "example.org", "spiffe://example.org/client"⟩ : ToyURL)
            ⟨"spiffe://example.org/client", [48, 2, 48, 0], [2, 9], [48, 0]⟩ toySnapshot =
          .ret bundle ∧
        validateCerts toyLib "spiffe://example.org/server" [[48, 1]] toySnapshot =
          verifyWithRoots toyLib "spiffe://example.org/server" (1 : Nat) [] bundle) ∧
      (∀ federated,
        validateCerts toyLib "spiffe://example.org/server" [[48, 1]]
            (toySnapshot.withFederatedBundles federated) =
          validateCerts toyLib "spiffe://example.org/server" [[48, 1]] toySnapshot)) ∧
    validateCerts toyLib "spiffe://example.org/server" [[48, 1]] toySnapshot = .ret () ∧
    validateCerts toyLib "spiffe://partner.org/server" [[48, 6]] toySnapshotAlone =
      .err (.noFederatedBundle "partner.org") ∧
    validateCerts toyLib "spiffe://partner.org/server" [[48, 6]] toySnapshot = .ret () :=
  ⟨(validateCerts_root_selection toyLib "spiffe://example.org/server" [[48, 1]] toySnapshot
      (1 : Nat) [] (⟨"spiffe", "example.org", "spiffe://example.org/server"⟩ : ToyURL)
      (⟨"spiffe", "example.org", "spiffe://example.org/client"⟩ : ToyURL)
      ⟨"spiffe://example.org/client", [48, 2, 48, 0], [2, 9], [48, 0]⟩ [] rfl rfl rfl rfl).1,
    rfl,
    (((validateCerts_root_selection toyLib "spiffe://partner.org/server" [[48, 6]]
      toySnapshotAlone (6 : Nat) []
      (⟨"spiffe", "partner.org", "spiffe://partner.org/server"⟩ : ToyURL)
      (⟨"spiffe", "example.org", "spiffe://example.org/client"⟩ : ToyURL)
      ⟨"spiffe://example.org/client", [48, 2, 48, 0], [2, 9], [48, 0]⟩ [] rfl rfl rfl rfl).2
      (by decide)).1 rfl).1,
    rfl⟩

/-- C3: for a chain that passes verification against the selected roots, with
verified leaf chains[0][0]: validateCerts fails with an error of kind
IdentityMismatch when the number of URI SANs of the verified leaf is not one
(whatever their schemes and values), else when the scheme of the sole URI SAN
is not spiffe (whatever its value), else when its string differs from the
target identity. The three checks are made in that order: count, scheme,
value. -/
theorem validateCerts_identity_mismatch (L : Lib) (spiffeID : String) (rawCerts : List Bytes)
    (resp : X509SVIDResponse) (leaf : L.Certificate) (intermediates : List L.Certificate)
    (spiffe mySpiffeID : L.URL) (svid : X509SVID) (others : List X509SVID)
    (roots : List L.Certificate) (verifiedLeaf : L.Certificate)
    (chainRest : List L.Certificate) (moreChains : List (List L.Certificate))
    (hchain : parsePeerCerts L rawCerts = .ok (leaf :: intermediates))
    (hs : L.urlParse spiffeID = .ok spiffe)
    (hsv : resp.Svids = svid :: others)
    (hmy : L.urlParse svid.SpiffeId = .ok mySpiffeID)
    (hroots : selectRoots L spiffe mySpiffeID svid resp = .ret roots)
    (hverify : L.Verify leaf { Intermediates := intermediates, Roots := roots } =
      .ok ((verifiedLeaf :: chainRest) :: moreChains)) :
    ((L.URIs verifiedLeaf).length ≠ 1 →
      validateCerts L spiffeID rawCerts resp =
        .err (.notExactlyOneURISAN (L.URIs verifiedLeaf).length)) ∧
    (∀ uri, L.URIs verifiedLeaf = [uri] → L.Scheme uri ≠ "spiffe" →
      validateCerts L spiffeID rawCerts resp = .err (.schemeNotSpiffe (L.Scheme uri))) ∧
    (∀ uri, L.URIs verifiedLeaf = [uri] → L.Scheme uri = "spiffe" →
      L.urlString uri ≠ spiffeID →
      validateCerts L spiffeID rawCerts resp =
        .err (.wrongSpiffeID (L.urlString uri) spiffeID)) ∧
    (∀ uri, L.URIs verifiedLeaf = [uri] → L.Scheme uri = "spiffe" →
      L.urlString uri = spiffeID → validateCerts L spiffeID rawCerts resp = .ret ()) ∧
    (∀ (count : Nat) (scheme uri target : String),
      (Error.notExactlyOneURISAN count : Error L.E).kind = some .IdentityMismatch ∧
      (Error.schemeNotSpiffe scheme : Error L.E).kind = some .IdentityMismatch ∧
      (Error.wrongSpiffeID uri target : Error L.E).kind = some .IdentityMismatch) := by
  have hreach : validateCerts L spiffeID rawCerts resp =
      checkVerifiedLeaf L spiffeID ((verifiedLeaf :: chainRest) :: moreChains) := by
    rw [validateCerts_of_reach L spiffeID rawCerts resp leaf intermediates spiffe
      mySpiffeID svid others hchain hs hsv hmy, hroots]
    simp only [verifyWithRoots, hverify]
  rw [hreach]
  refine ⟨fun hlen => ?_, fun uri hu hsch => ?_, fun uri hu hsch hstr => ?_,
    fun uri hu hsch hstr => ?_, fun _ _ _ _ => ⟨rfl, rfl, rfl⟩⟩
  · unfold checkVerifiedLeaf
    match hu : L.URIs verifiedLeaf with
    | [] => simp only [hu]
    | [uri] => simp [hu] at hlen
    | u1 :: u2 :: us => simp only [hu]
  · simp only [checkVerifiedLeaf, hu]
    simp [hsch]
  · simp only [checkVerifiedLeaf, hu]
    simp [hsch, hstr]
  · simp only [checkVerifiedLeaf, hu]
    simp [hsch, hstr]

/-- Witness of C3: in the small instance, certificate 2 verifies against the
own bundle and carries the sole URI SAN spiffe://example.org/client, which
differs from the target spiffe://example.org/server. -/
theorem validateCerts_identity_mismatch_witness :
    validateCerts toyLib "spiffe://example.org/server" [[48, 2]] toySnapshot =
      .err (.wrongSpiffeID "spiffe://example.org/client" "spiffe://example.org/server") :=
  (validateCerts_identity_mismatch toyLib "spiffe://example.org/server" [[48, 2]] toySnapshot
    (2 : Nat) [] (⟨"spiffe", "example.org", "spiffe://example.org/server"⟩ : ToyURL)
    (⟨"spiffe", "example.org", "spiffe://example.org/client"⟩ : ToyURL)
    ⟨"spiffe://example.org/client", [48, 2, 48, 0], [2, 9], [48, 0]⟩ [] [(0 : Nat)] (2 : Nat)
    [(0 : Nat)] [] rfl rfl rfl rfl rfl rfl).2.2.1
    (⟨"spiffe", "example.org", "spiffe://example.org/client"⟩ : ToyURL) rfl rfl (by decide)

/-- C1: when validateCerts returns nil, the presented chain parsed, its entry at
index 0 is the leaf, Verify succeeded on that leaf with the selected roots and
with the entries after index 0 as intermediates, and the verified leaf
chains[0][0] carries exactly one URI SAN, of scheme spiffe and with a string
form equal to the target identity. -/
theorem validateCerts_ret_sound (L : Lib) (spiffeID : String) (rawCerts : List Bytes)
    (resp : X509SVIDResponse) (h : validateCerts L spiffeID rawCerts resp = .ret ()) :
    ∃ rawLeaf rawRest leaf intermediates spiffe svid others mySpiffeID roots chains
        verifiedLeaf chainRest moreChains uri,
      rawCerts = rawLeaf :: rawRest ∧
      L.ParseCertificate rawLeaf = .ok leaf ∧
      parsePeerCerts L rawRest = .ok intermediates ∧
      L.urlParse spiffeID = .ok spiffe ∧
      resp.Svids = svid :: others ∧
      L.urlParse svid.SpiffeId = .ok mySpiffeID ∧
      selectRoots L spiffe mySpiffeID svid resp = .ret roots ∧
      L.Verify leaf { Intermediates := intermediates, Roots := roots } = .ok chains ∧
      chains = (verifiedLeaf :: chainRest) :: moreChains ∧
      L.URIs verifiedLeaf = [uri] ∧
      L.Scheme uri = "spiffe" ∧
      L.urlString uri = spiffeID := by
  unfold validateCerts at h
  cases rawCerts with
  | nil => simp [parsePeerCerts] at h
  | cons rawLeaf rawRest =>
    simp only [parsePeerCerts] at h
    cases hleaf : L.ParseCertificate rawLeaf with
    | error e => simp [hleaf] at h
    | ok leaf =>
      cases hrest : parsePeerCerts L rawRest with
      | error e => simp [hleaf, hrest] at h
      | ok intermediates =>
        simp only [hleaf, hrest] at h
        cases hs : L.urlParse spiffeID with
        | error e => simp [hs] at h
        | ok spiffe =>
          simp only [hs] at h
          cases hsv : resp.Svids with
          | nil => simp [hsv] at h
          | cons svid others =>
            simp only [hsv] at h
            cases hmy : L.urlParse svid.SpiffeId with
            | error e => simp [hmy] at h
            | ok mySpiffeID =>
              simp only [hmy] at h
              cases hroots : selectRoots L spiffe mySpiffeID svid resp with
              | err e => simp [hroots] at h
              | fatal => simp [hroots] at h
              | panic => simp [hroots] at h
              | ret roots =>
                simp only [hroots, verifyWithRoots] at h
                cases hv : L.Verify leaf { Intermediates := intermediates, Roots := roots } with
                | error e => simp [hv] at h
                | ok chains =>
                  simp only [hv] at h
                  unfold checkVerifiedLeaf at h
                  match chains, hv, h with
                  | [], _, h => simp at h
                  | [] :: _, _, h => simp at h
                  | (verifiedLeaf :: chainRest) :: moreChains, hv, h =>
                    simp only at h
                    cases hu : L.URIs verifiedLeaf with
                    | nil => simp [hu] at h
                    | cons uri us =>
                      cases us with
                      | cons u2 us2 => simp [hu] at h
                      | nil =>
                        simp only [hu] at h
                        by_cases hsch : L.Scheme uri = "spiffe"
                        · by_cases hstr : L.urlString uri = spiffeID
                          · exact ⟨rawLeaf, rawRest, leaf, intermediates, spiffe, svid, others,
                              mySpiffeID, roots, _, verifiedLeaf, chainRest, moreChains, uri,
                              rfl, hleaf, hrest, rfl, rfl, hmy, hroots, hv, rfl, hu, hsch, hstr⟩
                          · simp [hsch, hstr] at h
                        · simp [hsch] at h

/-- Witness of C1: in the small instance the chain made of certificate 1 is
accepted for the target spiffe://example.org/server. -/
theorem validateCerts_ret_sound_witness :
    ∃ rawLeaf rawRest leaf intermediates spiffe svid others mySpiffeID roots chains
        verifiedLeaf chainRest moreChains uri,
      [[48, 1]] = rawLeaf :: rawRest ∧
      toyLib.ParseCertificate rawLeaf = .ok leaf ∧
      parsePeerCerts toyLib rawRest = .ok intermediates ∧
      toyLib.urlParse "spiffe://example.org/server" = .ok spiffe ∧
      toySnapshot.Svids = svid :: others ∧
      toyLib.urlParse svid.SpiffeId = .ok mySpiffeID ∧
      selectRoots toyLib spiffe mySpiffeID svid toySnapshot = .ret roots ∧
      toyLib.Verify leaf { Intermediates := intermediates, Roots := roots } = .ok chains ∧
      chains = (verifiedLeaf :: chainRest) :: moreChains ∧
      toyLib.URIs verifiedLeaf = [uri] ∧
      toyLib.Scheme uri = "spiffe" ∧
      toyLib.urlString uri = "spiffe://example.org/server" :=
  validateCerts_ret_sound toyLib "spiffe://example.org/server" [[48, 1]] toySnapshot rfl

/-- C4, the failing input: on the empty presented chain validateCerts panics,
for every target identity and every snapshot. The slice expression certs[1:]
of line 58 is out of range. -/
theorem validateCerts_empty_chain_panics (L : Lib) (spiffeID : String)
    (resp : X509SVIDResponse) : validateCerts L spiffeID [] resp = .panic := by
  simp only [validateCerts, parsePeerCerts]

/-- On a chain that is not empty and a snapshot with at least one identity,
validateCerts neither panics nor exits the process, provided a successful
Verify returns a first chain that is not empty. -/
theorem validateCerts_nonempty_chain_returns (L : Lib) (spiffeID : String) (rawCert : Bytes)
    (rawRest : List Bytes) (resp : X509SVIDResponse) (svid : X509SVID) (others : List X509SVID)
    (hsv : resp.Svids = svid :: others)
    (hlib : ∀ leaf opts chains, L.Verify leaf opts = .ok chains →
      ∃ first chainRest moreChains, chains = (first :: chainRest) :: moreChains) :
    validateCerts L spiffeID (rawCert :: rawRest) resp = .ret () ∨
      ∃ e kind, validateCerts L spiffeID (rawCert :: rawRest) resp = .err e ∧
        e.kind = some kind := by
  unfold validateCerts
  simp only [parsePeerCerts]
  cases hleaf : L.ParseCertificate rawCert with
  | error e => exact Or.inr ⟨_, _, rfl, rfl⟩
  | ok leaf =>
    cases hrest : parsePeerCerts L rawRest with
    | error e => exact Or.inr ⟨_, _, rfl, rfl⟩
    | ok intermediates =>
      simp only []
      cases hs : L.urlParse spiffeID with
      | error e => exact Or.inr ⟨_, _, rfl, rfl⟩
      | ok spiffe =>
        simp only [hsv]
        cases hmy : L.urlParse svid.SpiffeId with
        | error e => exact Or.inr ⟨_, _, rfl, rfl⟩
        | ok mySpiffeID =>
          simp only [selectRoots]
          have hfin : ∀ roots, verifyWithRoots L spiffeID leaf intermediates roots = .ret () ∨
              ∃ e kind, verifyWithRoots L spiffeID leaf intermediates roots = .err e ∧
                e.kind = some kind := by
            intro roots
            unfold verifyWithRoots
            cases hv : L.Verify leaf { Intermediates := intermediates, Roots := roots } with
            | error e => exact Or.inr ⟨_, _, rfl, rfl⟩
            | ok chains =>
              obtain ⟨first, chainRest, moreChains, rfl⟩ := hlib _ _ _ hv
              simp only [checkVerifiedLeaf]
              match hu : L.URIs first with
              | [] => exact Or.inr ⟨_, _, rfl, rfl⟩
              | u1 :: u2 :: us => exact Or.inr ⟨_, _, rfl, rfl⟩
              | [uri] =>
                simp only []
                by_cases hsch : L.Scheme uri = "spiffe"
                · by_cases hstr : L.urlString uri = spiffeID
                  · left; simp [hsch, hstr]
                  · right
                    exact ⟨.wrongSpiffeID (L.urlString uri) spiffeID, .IdentityMismatch,
                      by simp [hsch, hstr], rfl⟩
                · right
                  exact ⟨.schemeNotSpiffe (L.Scheme uri), .IdentityMismatch,
                    by simp [hsch], rfl⟩
          by_cases hhost : L.Host mySpiffeID = L.Host spiffe
          · simp only [hhost, if_true]
            cases hb : L.ParseCertificates svid.Bundle with
            | error e => exact Or.inr ⟨_, _, rfl, rfl⟩
            | ok bundle => exact hfin bundle
          · simp only [hhost, if_false]
            cases hf : resp.FederatedBundles (L.Host spiffe) with
            | none => exact Or.inr ⟨_, _, rfl, rfl⟩
            | some rootDER =>
              simp only []
              cases hr : L.ParseCertificate rootDER with
              | error e => exact Or.inr ⟨_, _, rfl, rfl⟩
              | ok root => exact hfin [root]

/-- C5: when getCertificate returns a certificate, the snapshot has exactly
one identity, the returned chain is the list of the raw encodings of all the
certificates parsed from the certificate bytes of that identity, in order, the
returned leaf is the first parsed certificate, the first element of the chain
is the raw encoding of the returned leaf, and the returned key is the key
parsed from the key bytes. -/
theorem getCertificate_ret_chain (L : Lib) (resp : X509SVIDResponse) (tlsCertificate : TLSCertificate L)
    (h : getCertificate L resp = .ret tlsCertificate) :
    ∃ svid certs,
      resp.Svids = [svid] ∧
      L.ParseCertificates svid.X509Svid = .ok certs ∧
      L.ParsePKCS8PrivateKey svid.X509SvidKey = .ok tlsCertificate.PrivateKey ∧
      tlsCertificate.Certificate = certs.map L.Raw ∧
      certs.head? = some tlsCertificate.Leaf ∧
      tlsCertificate.Certificate.head? = some (L.Raw tlsCertificate.Leaf) := by
  unfold getCertificate at h
  match hsv : resp.Svids with
  | [] => simp [hsv] at h
  | _ :: _ :: _ => simp [hsv] at h
  | [svid] =>
    simp only [hsv] at h
    cases hc : L.ParseCertificates svid.X509Svid with
    | error e => simp [hc] at h
    | ok certs =>
      cases hk : L.ParsePKCS8PrivateKey svid.X509SvidKey with
      | error e => simp [hc, hk] at h
      | ok key =>
        simp only [hc, hk] at h
        cases certs with
        | nil => simp at h
        | cons leaf more =>
          simp only [Outcome.ret.injEq] at h
          subst h
          exact ⟨svid, leaf :: more, rfl, hc, hk, rfl, rfl, rfl⟩

/-- Witness of C5: the small instance on the snapshot with one identity. -/
theorem getCertificate_ret_chain_witness :
    ∃ svid certs,
      toySnapshot.Svids = [svid] ∧
      toyLib.ParseCertificates svid.X509Svid = .ok certs ∧
      toyLib.ParsePKCS8PrivateKey svid.X509SvidKey = .ok (9 : Nat) ∧
      [[48, 2], [48, 0]] = certs.map toyLib.Raw ∧
      certs.head? = some (2 : Nat) ∧
      [[48, 2], [48, 0]].head? = some (toyLib.Raw (2 : Nat)) :=
  getCertificate_ret_chain toyLib toySnapshot
    { Certificate := [[48, 2], [48, 0]], PrivateKey := (9 : Nat), Leaf := (2 : Nat) } rfl

/-- C6: on a snapshot whose number of identities is not one, getCertificate
exits the process through log.Fatalf, whatever the library does: it returns
neither a certificate nor an error. -/
theorem getCertificate_fatal (L : Lib) (resp : X509SVIDResponse)
    (h : resp.Svids.length ≠ 1) : getCertificate L resp = .fatal := by
  unfold getCertificate
  match hsv : resp.Svids with
  | [] => rfl
  | _ :: _ :: _ => rfl
  | [svid] => simp [hsv] at h

/-- Witness of C6: the snapshot with two identities. -/
theorem getCertificate_fatal_witness : getCertificate toyLib toySnapshotTwo = .fatal :=
  getCertificate_fatal toyLib toySnapshotTwo (by decide)

/-- C7, the failing input: on a snapshot with one identity whose certificate
bytes parse to no certificate at all and whose key parses, getCertificate
panics. The index expression certs[0] of line 41 is out of range. -/
theorem getCertificate_no_certificate_panics (L : Lib) (resp : X509SVIDResponse)
    (svid : X509SVID) (key : L.PrivateKey)
    (hsv : resp.Svids = [svid])
    (hcerts : L.ParseCertificates svid.X509Svid = .ok [])
    (hkey : L.ParsePKCS8PrivateKey svid.X509SvidKey = .ok key) :
    getCertificate L resp = .panic := by
  simp only [getCertificate, hsv, hcerts, hkey]

/-- Witness of C7: the small instance on the identity with empty certificate
bytes and a well formed key. -/
theorem getCertificate_no_certificate_panics_witness :
    getCertificate toyLib toySnapshotNoCert = .panic :=
  getCertificate_no_certificate_panics toyLib toySnapshotNoCert
    ⟨"spiffe://example.org/client", [], [2, 9], [48, 0]⟩ (9 : Nat) rfl rfl rfl

/-- On a snapshot with one identity: malformed certificate bytes give the
error of line 26 whatever the key bytes are, malformed key bytes after well
formed certificate bytes give the error of line 30, both of kind ParseError,
and a certificate is returned when both parse and there is at least one
certificate. -/
theorem getCertificate_one_identity (L : Lib) (resp : X509SVIDResponse) (svid : X509SVID)
    (hsv : resp.Svids = [svid]) :
    (∀ e, L.ParseCertificates svid.X509Svid = .error e →
      getCertificate L resp = .err (.couldNotParseCertificate e)) ∧
    (∀ certs e, L.ParseCertificates svid.X509Svid = .ok certs →
      L.ParsePKCS8PrivateKey svid.X509SvidKey = .error e →
      getCertificate L resp = .err (.couldNotParseKey e)) ∧
    (∀ leaf more key, L.ParseCertificates svid.X509Svid = .ok (leaf :: more) →
      L.ParsePKCS8PrivateKey svid.X509SvidKey = .ok key →
      getCertificate L resp =
        .ret { Certificate := (leaf :: more).map L.Raw, PrivateKey := key, Leaf := leaf }) := by
  refine ⟨fun e he => ?_, fun certs e hc he => ?_, fun leaf more key hc hk => ?_⟩
  · simp only [getCertificate, hsv, he]
  · simp only [getCertificate, hsv, hc, he]
  · simp only [getCertificate, hsv, hc, hk]

/-- C8: in the configuration WithSpiffe builds, built-in verification is
switched off, and at every call each callback reads the accessor of the client
anew: when the accessor fails the callback fails with an error, when it returns
the snapshot s the certificate callback returns getCertificate(s) and the peer
callback returns validateCerts(target, rawCerts, s). The snapshot received at
construction has no influence on the configuration. -/
theorem WithSpiffe_callbacks (L : Lib) (spiffeID : String) (first : X509SVIDResponse)
    (cfg : TLSConfig L) (h : WithSpiffe L spiffeID first = .ret cfg) :
    cfg.InsecureSkipVerify = true ∧
    (∀ (client : X509Client L) (e : L.E), client.CurrentSVID = .error e →
      cfg.GetClientCertificate client = .err (.gettingClientCertificate e) ∧
      ∀ rawCerts, cfg.VerifyPeerCertificate client rawCerts = .err (.gettingFederatedTrust e)) ∧
    (∀ (client : X509Client L) (s : X509SVIDResponse), client.CurrentSVID = .ok s →
      cfg.GetClientCertificate client = getCertificate L s ∧
      ∀ rawCerts, cfg.VerifyPeerCertificate client rawCerts =
        validateCerts L spiffeID rawCerts s) ∧
    (∀ (other : X509SVIDResponse) (cfg2 : TLSConfig L),
      WithSpiffe L spiffeID other = .ret cfg2 → cfg2 = cfg) := by
  have key : ∀ (snapshot : X509SVIDResponse) (c : TLSConfig L),
      WithSpiffe L spiffeID snapshot = .ret c →
      c = { GetClientCertificate := fun client =>
              match client.CurrentSVID with
              | .error e => .err (.gettingClientCertificate e)
              | .ok resp => getCertificate L resp
            InsecureSkipVerify := true
            VerifyPeerCertificate := fun client rawCerts =>
              match client.CurrentSVID with
              | .error e => .err (.gettingFederatedTrust e)
              | .ok resp => validateCerts L spiffeID rawCerts resp } := by
    intro snapshot c hc
    unfold WithSpiffe at hc
    match hsv : snapshot.Svids with
    | [] => simp [hsv] at hc
    | _ :: _ =>
      simp only [hsv, Outcome.ret.injEq] at hc
      exact hc.symm
  have hcfg := key first cfg h
  refine ⟨by rw [hcfg], fun client e he => ?_, fun client s hs => ?_, fun other cfg2 h2 => ?_⟩
  · rw [hcfg]
    simp only [he]
    exact ⟨trivial, fun _ => trivial⟩
  · rw [hcfg]
    simp only [hs]
    exact ⟨trivial, fun _ => trivial⟩
  · rw [hcfg, key other cfg2 h2]

/-- Witness of C8: the configuration built in the small instance from the
snapshot with one identity. -/
theorem WithSpiffe_callbacks_witness :
    ∃ cfg : TLSConfig toyLib,
      WithSpiffe toyLib "spiffe://example.org/server" toySnapshot = .ret cfg ∧
      cfg.InsecureSkipVerify = true ∧
      cfg.VerifyPeerCertificate ⟨.ok toySnapshotAlone⟩ [[48, 1]] =
        validateCerts toyLib "spiffe://example.org/server" [[48, 1]] toySnapshotAlone ∧
      cfg.GetClientCertificate ⟨.error "no SVID yet"⟩ =
        .err (.gettingClientCertificate "no SVID yet") :=
  ⟨_, rfl,
    (WithSpiffe_callbacks toyLib "spiffe://example.org/server" toySnapshot _ rfl).1,
    ((WithSpiffe_callbacks toyLib "spiffe://example.org/server" toySnapshot _ rfl).2.2.1
      ⟨.ok toySnapshotAlone⟩ toySnapshotAlone rfl).2 [[48, 1]],
    ((WithSpiffe_callbacks toyLib "spiffe://example.org/server" toySnapshot _ rfl).2.1
      ⟨.error "no SVID yet"⟩ "no SVID yet" rfl).1⟩

/-! ## Theorems on main.go -/

/-- The result of splitting is never the empty list. -/
theorem splitChars_ne_nil (sep : Char) (cs : List Char) : splitChars sep cs ≠ [] := by
  cases cs with
  | nil => simp [splitChars]
  | cons c cs =>
    simp only [splitChars]
    split
    · simp
    · split <;> simp

/-- A list without the separator is the only part of its own splitting. -/
theorem splitChars_of_not_mem (sep : Char) (a : List Char) (h : sep ∉ a) :
    splitChars sep a = [a] := by
  induction a with
  | nil => rfl
  | cons c cs ih =>
    have hc : c ≠ sep := fun hcs => h (by simp [hcs])
    have hcs : sep ∉ cs := fun hm => h (List.mem_cons_of_mem _ hm)
    simp only [splitChars, hc, if_false, ih hcs]

/-- Splitting goes through the first separator. -/
theorem splitChars_append_sep (sep : Char) (a rest : List Char) (h : sep ∉ a) :
    splitChars sep (a ++ sep :: rest) = a :: splitChars sep rest := by
  induction a with
  | nil => simp [splitChars]
  | cons c cs ih =>
    have hc : c ≠ sep := fun hcs => h (by simp [hcs])
    have hcs : sep ∉ cs := fun hm => h (List.mem_cons_of_mem _ hm)
    simp only [List.cons_append, splitChars, hc, if_false, List.append_eq, ih hcs]

/-- The first part of a splitting holds no separator, and the input is that
part, followed by the separator and the rest when there are more parts. -/
theorem splitChars_cons (sep : Char) (cs part : List Char) (parts : List (List Char))
    (h : splitChars sep cs = part :: parts) :
    sep ∉ part ∧
      ((parts = [] ∧ cs = part) ∨
        ∃ rest, cs = part ++ sep :: rest ∧ splitChars sep rest = parts) := by
  induction cs generalizing part parts with
  | nil =>
    simp only [splitChars, List.cons.injEq] at h
    obtain ⟨rfl, rfl⟩ := h
    simp
  | cons c cs ih =>
    simp only [splitChars] at h
    by_cases hc : c = sep
    · simp only [hc, if_true, List.cons.injEq] at h
      obtain ⟨rfl, rfl⟩ := h
      refine ⟨by simp, Or.inr ⟨cs, by simp [hc], rfl⟩⟩
    · simp only [hc, if_false] at h
      match hs : splitChars sep cs with
      | [] => exact absurd hs (splitChars_ne_nil sep cs)
      | p :: ps =>
        simp only [hs, List.cons.injEq] at h
        obtain ⟨rfl, rfl⟩ := h
        obtain ⟨hp, hrest⟩ := ih p ps hs
        refine ⟨?_, ?_⟩
        · intro hm
          rcases List.mem_cons.mp hm with hm | hm
          · exact hc hm.symm
          · exact hp hm
        · rcases hrest with ⟨rfl, rfl⟩ | ⟨rest, rfl, hr⟩
          · exact Or.inl ⟨rfl, rfl⟩
          · exact Or.inr ⟨rest, by simp, hr⟩

/-- Splitting gives five parts exactly for the inputs made of five lists free
of the separator, joined by four separators. -/
theorem splitChars_five (sep : Char) (cs a b c d e : List Char) :
    splitChars sep cs = [a, b, c, d, e] ↔
      cs = a ++ sep :: (b ++ sep :: (c ++ sep :: (d ++ sep :: e))) ∧
        sep ∉ a ∧ sep ∉ b ∧ sep ∉ c ∧ sep ∉ d ∧ sep ∉ e := by
  constructor
  · intro h
    obtain ⟨ha, h1⟩ := splitChars_cons sep cs a _ h
    rcases h1 with ⟨hnil, _⟩ | ⟨r1, rfl, h1⟩
    · simp at hnil
    obtain ⟨hb, h2⟩ := splitChars_cons sep r1 b _ h1
    rcases h2 with ⟨hnil, _⟩ | ⟨r2, rfl, h2⟩
    · simp at hnil
    obtain ⟨hc, h3⟩ := splitChars_cons sep r2 c _ h2
    rcases h3 with ⟨hnil, _⟩ | ⟨r3, rfl, h3⟩
    · simp at hnil
    obtain ⟨hd, h4⟩ := splitChars_cons sep r3 d _ h3
    rcases h4 with ⟨hnil, _⟩ | ⟨r4, rfl, h4⟩
    · simp at hnil
    obtain ⟨he, h5⟩ := splitChars_cons sep r4 e _ h4
    rcases h5 with ⟨_, rfl⟩ | ⟨r5, _, h5⟩
    · exact ⟨rfl, ha, hb, hc, hd, he⟩
    · exact absurd h5 (splitChars_ne_nil sep r5)
  · rintro ⟨rfl, ha, hb, hc, hd, he⟩
    rw [splitChars_append_sep sep a _ ha, splitChars_append_sep sep b _ hb,
      splitChars_append_sep sep c _ hc, splitChars_append_sep sep d _ hd,
      splitChars_of_not_mem sep e he]

/-- A list of strings built from lists of characters, read backwards. -/
theorem map_mk_eq_iff (l : List (List Char)) (strs : List String) :
    l.map String.mk = strs ↔ l = strs.map String.data := by
  constructor
  · rintro rfl
    induction l with
    | nil => rfl
    | cons x xs ih => simp only [List.map_cons, ← ih]
  · rintro rfl
    induction strs with
    | nil => rfl
    | cons x xs ih => simp only [List.map_cons, ih]

/-- The boolean test of strings.HasPrefix holds exactly when the string is the
given beginning followed by some rest. -/
theorem stringsHasPrefix_iff (s pre : String) :
    stringsHasPrefix s pre = true ↔ ∃ rest : String, s = pre ++ rest := by
  unfold stringsHasPrefix
  have key : ∀ a b : List Char, a.isPrefixOf b = true ↔ ∃ t, b = a ++ t := by
    intro a
    induction a with
    | nil => intro b; simp
    | cons x xs ih =>
      intro b
      cases b with
      | nil => simp [List.isPrefixOf]
      | cons y ys =>
        simp only [List.isPrefixOf, Bool.and_eq_true, beq_iff_eq, ih ys, List.cons_append,
          List.cons.injEq]
        constructor
        · rintro ⟨rfl, t, rfl⟩
          exact ⟨t, rfl, rfl⟩
        · rintro ⟨t, rfl, rfl⟩
          exact ⟨rfl, t, rfl⟩
  rw [key]
  constructor
  · rintro ⟨t, ht⟩
    exact ⟨⟨t⟩, String.ext (by simp [ht])⟩
  · rintro ⟨rest, rfl⟩
    exact ⟨rest.data, by simp⟩

/-- The provider IDs that split into the five parts aws:, empty, empty, az and
instanceID are those of the form aws:///az/instanceID without any further
slash. -/
theorem stringsSplit_providerID (providerID az instanceID : String) :
    stringsSplit providerID '/' = ["aws:", "", "", az, instanceID] ↔
      providerID = "aws:///" ++ az ++ "/" ++ instanceID ∧
        '/' ∉ az.data ∧ '/' ∉ instanceID.data := by
  unfold stringsSplit
  rw [map_mk_eq_iff]
  simp only [List.map_cons, List.map_nil]
  rw [splitChars_five]
  have h1 : ("aws:" : String).data = ['a', 'w', 's', ':'] := rfl
  have h2 : ("" : String).data = [] := rfl
  have h3 : ("aws:///" : String).data = ['a', 'w', 's', ':', '/', '/', '/'] := rfl
  have h4 : ("/" : String).data = ['/'] := rfl
  have h5 : '/' ∉ ['a', 'w', 's', ':'] := by decide
  rw [String.ext_iff]
  simp only [String.data_append, h1, h2, h3, h4, List.nil_append, List.cons_append,
    List.append_assoc, List.not_mem_nil, not_false_eq_true, true_and, h5]

/-- The entry built for a provider ID that splits as expected. -/
theorem buildRegistrationEntry_ret (Config : ConfigT) (providerID : String) (pod : Pod)
    (az instanceID : String)
    (hsplit : stringsSplit providerID '/' = ["aws:", "", "", az, instanceID])
    (hregion : stringsHasPrefix az Config.Region = true) :
    buildRegistrationEntry Config providerID pod =
      .ret
        { ParentId := "spiffe://" ++ Config.TrustDomain ++ "/spire/agent/aws_iid/"
            ++ Config.AwsAccount ++ "/" ++ Config.Region ++ "/" ++ instanceID
          SpiffeId := "spiffe://" ++ Config.TrustDomain ++ "/" ++ pod.Namespace
          Selectors := [{ Typ := "k8s", Value := "pod-uid:" ++ pod.UID }] } := by
  unfold buildRegistrationEntry
  simp [hsplit, hregion]

/-- Every other provider ID makes the construction panic. -/
theorem buildRegistrationEntry_panic (Config : ConfigT) (providerID : String) (pod : Pod)
    (h : ¬ ∃ az instanceID, stringsSplit providerID '/' = ["aws:", "", "", az, instanceID] ∧
      stringsHasPrefix az Config.Region = true) :
    buildRegistrationEntry Config providerID pod = .panic := by
  unfold buildRegistrationEntry
  generalize stringsSplit providerID '/' = parts at h
  rcases parts with _ | ⟨p0, _ | ⟨p1, _ | ⟨p2, _ | ⟨az, _ | ⟨inst, _ | ⟨x, xs⟩⟩⟩⟩⟩⟩
  · simp
  · simp
  · simp
  · simp
  · simp
  · by_cases h0 : p0 = "aws:"
    · by_cases h1 : p1 = ""
      · by_cases h2 : p2 = ""
        · by_cases hp : stringsHasPrefix az Config.Region = true
          · exact absurd ⟨az, inst, by rw [h0, h1, h2], hp⟩ h
          · simp [h0, h1, h2, hp]
        · simp [h2]
      · simp [h1]
    · simp [h0]
  · simp

/-- C10: from the provider ID of the node to the registration entry of the
pod. The Added handler builds an entry exactly when the provider ID splits on
the slash into the five parts aws:, empty, empty, az, instanceID with the
configured Region a beginning of az, that is when it has the form
aws:///az/instanceID with no further slash. The entry then has the parent ID
spiffe://TrustDomain/spire/agent/aws_iid/AwsAccount/Region/instanceID, the
SPIFFE ID spiffe://TrustDomain/namespace and the single selector of type k8s
and value pod-uid:UID, and it is what the handler hands to CreateEntry. For
every other provider ID the handler panics. -/
theorem buildRegistrationEntry_spec (Config : ConfigT) (providerID : String) (pod : Pod) :
    ((∃ entry, buildRegistrationEntry Config providerID pod = .ret entry) ↔
      ∃ az instanceID, stringsSplit providerID '/' = ["aws:", "", "", az, instanceID] ∧
        stringsHasPrefix az Config.Region = true) ∧
    ((∃ az instanceID, stringsSplit providerID '/' = ["aws:", "", "", az, instanceID] ∧
        stringsHasPrefix az Config.Region = true) ↔
      ∃ az instanceID, providerID = "aws:///" ++ az ++ "/" ++ instanceID ∧
        '/' ∉ az.data ∧ '/' ∉ instanceID.data ∧ ∃ rest : String, az = Config.Region ++ rest) ∧
    (∀ az instanceID, stringsSplit providerID '/' = ["aws:", "", "", az, instanceID] →
      stringsHasPrefix az Config.Region = true →
      buildRegistrationEntry Config providerID pod =
        .ret
          { ParentId := "spiffe://" ++ Config.TrustDomain ++ "/spire/agent/aws_iid/"
              ++ Config.AwsAccount ++ "/" ++ Config.Region ++ "/" ++ instanceID
            SpiffeId := "spiffe://" ++ Config.TrustDomain ++ "/" ++ pod.Namespace
            Selectors := [{ Typ := "k8s", Value := "pod-uid:" ++ pod.UID }] }) ∧
    (∀ entry registrationClient w, buildRegistrationEntry Config providerID pod = .ret entry →
      w.hostMap pod.NodeName = some (.string providerID) → Config.SpireServer ≠ "" →
      podAdded Config registrationClient pod w =
        match registrationClient.CreateEntry entry with
        | .error _ => .panic
        | .ok id =>
          .ret { w with
            podMap := w.podMap.Store pod.UID (.string id.Id)
            calls := w.calls ++ [.CreateEntry entry] }) ∧
    ((¬ ∃ az instanceID, stringsSplit providerID '/' = ["aws:", "", "", az, instanceID] ∧
        stringsHasPrefix az Config.Region = true) →
      buildRegistrationEntry Config providerID pod = .panic ∧
      ∀ registrationClient w, w.hostMap pod.NodeName = some (.string providerID) →
        podAdded Config registrationClient pod w = .panic) := by
  refine ⟨⟨?_, ?_⟩, ⟨?_, ?_⟩, ?_, ?_, ?_⟩
  · rintro ⟨entry, hentry⟩
    by_contra hn
    rw [buildRegistrationEntry_panic Config providerID pod hn] at hentry
    cases hentry
  · rintro ⟨az, instanceID, hsplit, hregion⟩
    exact ⟨_, buildRegistrationEntry_ret Config providerID pod az instanceID hsplit hregion⟩
  · rintro ⟨az, instanceID, hsplit, hregion⟩
    obtain ⟨hform, haz, hid⟩ := (stringsSplit_providerID providerID az instanceID).mp hsplit
    exact ⟨az, instanceID, hform, haz, hid, (stringsHasPrefix_iff az Config.Region).mp hregion⟩
  · rintro ⟨az, instanceID, hform, haz, hid, hrest⟩
    exact ⟨az, instanceID,
      (stringsSplit_providerID providerID az instanceID).mpr ⟨hform, haz, hid⟩,
      (stringsHasPrefix_iff az Config.Region).mpr hrest⟩
  · exact fun az instanceID hsplit hregion =>
      buildRegistrationEntry_ret Config providerID pod az instanceID hsplit hregion
  · intro entry registrationClient w hentry hhost hserver
    simp only [podAdded, SyncMap.Load, hhost, Dyn.assertString, hentry, hserver, ne_eq,
      not_false_eq_true, if_true]
  · intro hn
    have hpanic := buildRegistrationEntry_panic Config providerID pod hn
    refine ⟨hpanic, fun registrationClient w hhost => ?_⟩
    simp only [podAdded, SyncMap.Load, hhost, Dyn.assertString, hpanic]

/-- C10 on the provider ID of the comment of line 89. -/
theorem buildRegistrationEntry_example :
    buildRegistrationEntry toyConfig "aws:///us-east-2a/i-0bc11c4b1c7a70acb" toyPod =
      .ret toyEntry ∧
    buildRegistrationEntry toyConfig "aws:///eu-west-1a/i-0bc11c4b1c7a70acb" toyPod = .panic ∧
    buildRegistrationEntry toyConfig "aws:///us-east-2a/i-0bc11c4b1c7a70acb/x" toyPod = .panic ∧
    buildRegistrationEntry toyConfig "gce:///us-east-2a/i-0bc11c4b1c7a70acb" toyPod = .panic :=
  ⟨rfl, rfl, rfl, rfl⟩

/-- C9, the failing input: once the Added handler has registered the pod, so
that CreateEntry returned the entry ID id and the handler stored its Id in
podMap under the UID of the pod, a later Deleted event for the same pod calls
DeleteEntry with the empty Id. The value stored at line 200 is a string, the
type assertion of line 216 asks for a RegistrationEntryID, fails, and leaves
the zero value. -/
theorem podDeleted_after_podAdded (Config : ConfigT) (created deleting : RegistrationClient)
    (pod : Pod) (w : World) (providerID : String) (entry : RegistrationEntry)
    (id : RegistrationEntryID)
    (hserver : Config.SpireServer ≠ "")
    (hhost : w.hostMap pod.NodeName = some (.string providerID))
    (hentry : buildRegistrationEntry Config providerID pod = .ret entry)
    (hcreate : created.CreateEntry entry = .ok id) :
    ∃ w1, podAdded Config created pod w = .ret w1 ∧
      w1.podMap.Load pod.UID = (.string id.Id, true) ∧
      podDeleted Config deleting pod w1 =
        .ret { w1 with calls := w.calls ++ [.CreateEntry entry, .DeleteEntry { Id := "" }] } := by
  refine ⟨{ w with
      podMap := w.podMap.Store pod.UID (.string id.Id)
      calls := w.calls ++ [.CreateEntry entry] }, ?_, ?_, ?_⟩
  · simp only [podAdded, SyncMap.Load, hhost, Dyn.assertString, hentry, hserver, ne_eq,
      not_false_eq_true, if_true, hcreate]
  · simp [SyncMap.Load, SyncMap.Store]
  · simp only [podDeleted, hserver, ne_eq, not_false_eq_true, if_true, SyncMap.Load,
      SyncMap.Store, Dyn.assertRegistrationEntryID, List.append_assoc, List.singleton_append]
    cases deleting.DeleteEntry { Id := "" } <;> rfl

/-- Witness of C9: the pod of the small configuration is registered under the
entry ID entry-1 and deleted under the empty entry ID. -/
theorem podDeleted_after_podAdded_witness :
    ∃ w1, podAdded toyConfig toyRegistrationClient toyPod toyWorld = .ret w1 ∧
      w1.podMap.Load toyPod.UID = (.string "entry-1", true) ∧
      podDeleted toyConfig toyRegistrationClient toyPod w1 =
        .ret { w1 with calls := [.CreateEntry toyEntry, .DeleteEntry { Id := "" }] } :=
  podDeleted_after_podAdded toyConfig toyRegistrationClient toyRegistrationClient toyPod
    toyWorld "aws:///us-east-2a/i-0bc11c4b1c7a70acb" toyEntry { Id := "entry-1" }
    (by decide) rfl rfl rfl

end SpireEksRa
